import Mathlib

/-!
Verification of the unleash feature-toggle server's tag store and
admin-API behaviour, as a shallow embedding in Lean 4.

The tag store (`src/lib/db/tag-store.ts`) is a thin wrapper over a SQL
table `tags` with columns `(type, value)` and a unique constraint on
that pair (the `onConflict(['type', 'value'])` clause in `bulkImport`
presupposes the unique index; the spec states the constraint
explicitly).  We embed the table as a list of rows in insertion order
and each store method as a pure function over it; a method that can
fail returns `Except`.  Read-only methods (`getTag`, `exists`) are
plain functions of the table and by construction leave it unchanged.

The feature-toggle store and admin routes are exercised only by tests
in this repository snapshot (`src/lib/routes/admin-api/feature.test.js`),
so the toggle layer below is modelled from the spec, definition by
definition, as marked in the doc comments.
-/

namespace Unleash

/-- A tag row: composite natural key `(type, value)`, no surrogate id. -/
structure ITag where
  type : String
  value : String
deriving DecidableEq, Repr

/-- The `tags` table: rows in insertion order. -/
abbrev TagTable := List ITag

namespace TagStore

/-- The SQL `WHERE type = ? AND value = ?` match used by every tag-store
query: row `r` matches the natural key of `t`. -/
def sameKey (r t : ITag) : Bool :=
  r.type == t.type && r.value == t.value

/-- `SELECT EXISTS (SELECT 1 FROM tags WHERE type = ? AND value = ?)`:
whether some row carries the given natural key. -/
def hasKey (db : TagTable) (t : ITag) : Bool :=
  db.any (fun r => sameKey r t)

/-- The message of the `NotFoundError` thrown by `getTag`. -/
def notFoundMsg (type value : String) : String :=
  "No tag with type: [" ++ type ++ "] and value [" ++ value ++ "]"

/-- The duplicate-key error a SQL insert raises when the unique
constraint on `(type, value)` is violated. -/
def dupKeyMsg : String :=
  "duplicate key value violates unique constraint"

/-- `getTag(type, value)`: `db.first(COLUMNS).from(TABLE).where({ type, value })`,
throwing `NotFoundError` when no row matches. -/
def getTag (type value : String) (db : TagTable) : Except String ITag :=
  match db.find? (fun r => r.type == type && r.value == value) with
  | some t => Except.ok t
  | none => Except.error (notFoundMsg type value)

/-- `exists(tag)`: the raw `SELECT EXISTS` query on the natural key. -/
def existsTag (tag : ITag) (db : TagTable) : Bool :=
  db.any (fun r => r.type == tag.type && r.value == tag.value)

/-- `createTag(tag)`: a plain `INSERT`.  The duplicate-key failure comes
from the table's unique constraint on `(type, value)` (the schema lives
outside the store; the spec records the constraint), so the insert
fails exactly when a row with the same natural key is present, and on
failure the statement leaves the table unchanged. -/
def createTag (tag : ITag) (db : TagTable) : Except String TagTable :=
  if hasKey db tag then
    Except.error dupKeyMsg
  else
    Except.ok (db ++ [tag])

/-- `deleteTag(tag)`: `db(TABLE).where(tag).del()` — delete every row
matching both columns of the argument; no error when nothing matches. -/
def deleteTag (tag : ITag) (db : TagTable) : TagTable :=
  db.filter (fun r => !(sameKey r tag))

/-- `bulkImport(tags)`: `INSERT ... ON CONFLICT (type, value) DO NOTHING
RETURNING type, value`.  Rows are processed in order; a row whose key is
already present (in the table or earlier in the same statement) is
silently skipped; the returned list holds exactly the rows actually
inserted.  The statement itself never raises. -/
def bulkImport : List ITag → TagTable → (List ITag × TagTable)
  | [], db => ([], db)
  | t :: rest, db =>
    if hasKey db t then bulkImport rest db
    else
      let p := bulkImport rest (db ++ [t])
      (t :: p.1, p.2)

end TagStore

/-- Modelled from the spec: an activation strategy `{name, parameters}`
(the feature-toggle store itself is absent from this snapshot). -/
structure Strategy where
  name : String
  parameters : List (String × String)
deriving DecidableEq, Repr

/-- Modelled from the spec: a variant `{name, weight}`, name unique
within a toggle. -/
structure Variant where
  name : String
  weight : Nat
deriving DecidableEq, Repr

/-- Modelled from the spec: a toggle definition
`{name, enabled, strategies, variants, stale, project, tags}`. -/
structure FeatureToggle where
  name : String
  enabled : Bool
  strategies : List Strategy
  variants : List Variant
  stale : Bool
  project : String
  tags : List ITag
deriving DecidableEq, Repr

/-- Modelled from the spec: an event record
`{type, data snapshot (the toggle name), tags}`; the tag list is copied
by value into the record when the event is emitted. -/
structure Event where
  type : String
  featureName : String
  tags : List ITag
deriving DecidableEq, Repr

/-- Modelled from the spec: server state — active toggles and archived
toggles in insertion order, plus the append-only event log (stored
oldest-first; `getEvents` reads it most-recent-first). -/
structure ServerState where
  features : List FeatureToggle
  archived : List FeatureToggle
  events : List Event
deriving DecidableEq, Repr

/-- An HTTP outcome: status code and the first `details[].message` of
the error body, when one is produced. -/
structure ApiResult where
  status : Nat
  message : Option String
deriving DecidableEq, Repr

/-- Modelled from the spec: a character the URL-friendly name pattern
accepts (letters, digits, and the unreserved marks); spaces, `$`, `&`,
`%` and non-ASCII characters are rejected. -/
def isUrlFriendlyChar (c : Char) : Bool :=
  c.isAlphanum || c == '-' || c == '_' || c == '.' || c == '!' ||
    c == '~' || c == '*' || c == '(' || c == ')'

/-- Modelled from the spec: a toggle name is URL friendly when it is
nonempty and every character is URL safe. -/
def isUrlFriendly (s : String) : Bool :=
  !s.isEmpty && s.toList.all isUrlFriendlyChar

/-- Whether a list of names has no duplicates (variant-name uniqueness
check). -/
def namesNodup : List String → Bool
  | [] => true
  | n :: rest => !rest.contains n && namesNodup rest

/-- Look a toggle up by name in a toggle list. -/
def findFeature (name : String) (fs : List FeatureToggle) : Option FeatureToggle :=
  fs.find? (fun f => f.name == name)

/-- The `400` message for a name that fails the URL-friendly pattern. -/
def urlFriendlyMsg : String := "\"name\" must be URL friendly"

/-- The `409` message when the name belongs to an active toggle. -/
def conflictActiveMsg : String := "A toggle with that name already exists"

/-- The `409` message when the name belongs to an archived toggle. -/
def conflictArchivedMsg : String := "An archived toggle with that name already exists"

/-- The `400` message when the definition has no strategies. -/
def strategiesMsg : String := "\"strategies\" must contain at least 1 items"

/-- The `400` message when two variants share a name. -/
def variantsMsg : String := "\"variants\" contains a duplicate value"

/-- Modelled from the spec: the name checks shared by
`POST /api/admin/features/validate` and toggle creation — the
URL-friendly pattern (`400`), then a conflict with an active toggle
(`409`), then a conflict with an archived toggle (`409`). -/
def validateToggleName (name : String) (st : ServerState) : ApiResult :=
  if !(isUrlFriendly name) then ⟨400, some urlFriendlyMsg⟩
  else if (findFeature name st.features).isSome then ⟨409, some conflictActiveMsg⟩
  else if (findFeature name st.archived).isSome then ⟨409, some conflictArchivedMsg⟩
  else ⟨200, none⟩

/-- Modelled from the spec: `POST /api/admin/features` — the name checks
of `validateToggleName` first, then schema validation (at least one
strategy, variant names unique within the toggle); on success (`201`)
the toggle is appended (insertion order) and a `feature-created` event
is emitted; on failure the state is unchanged. -/
def createFeature (d : FeatureToggle) (st : ServerState) : ApiResult × ServerState :=
  if !(isUrlFriendly d.name) then (⟨400, some urlFriendlyMsg⟩, st)
  else if (findFeature d.name st.features).isSome then (⟨409, some conflictActiveMsg⟩, st)
  else if (findFeature d.name st.archived).isSome then (⟨409, some conflictArchivedMsg⟩, st)
  else if d.strategies.isEmpty then (⟨400, some strategiesMsg⟩, st)
  else if !namesNodup (d.variants.map Variant.name) then (⟨400, some variantsMsg⟩, st)
  else (⟨201, none⟩,
    { st with
        features := st.features ++ [d],
        events := st.events ++ [⟨"feature-created", d.name, d.tags⟩] })

/-- Modelled from the spec: `DELETE /api/admin/features/:name` — moves
the toggle to the archived set and emits one `feature-archived` event
whose `tags` field is a by-value copy of the toggle's tag set at that
moment. -/
def archiveFeature (name : String) (st : ServerState) : ApiResult × ServerState :=
  match findFeature name st.features with
  | none => (⟨404, none⟩, st)
  | some t =>
    (⟨200, none⟩,
      { features := st.features.filter (fun f => !(f.name == name)),
        archived := st.archived ++ [t],
        events := st.events ++ [⟨"feature-archived", name, t.tags⟩] })

/-- Modelled from the spec: `tagFeature(name, tag)` — attaches the tag
to the named toggle and emits a `feature-tagged` event; historical
events are never rewritten. -/
def tagFeature (name : String) (tg : ITag) (st : ServerState) : ServerState :=
  { st with
      features := st.features.map
        (fun f => if f.name == name then { f with tags := f.tags ++ [tg] } else f),
      events := st.events ++ [⟨"feature-tagged", name, [tg]⟩] }

/-- Whether the first character list is an initial segment of the
second (the exact-prefix name match). -/
def listPre : List Char → List Char → Bool
  | [], _ => true
  | _ :: _, [] => false
  | a :: as, b :: bs => a == b && listPre as bs

/-- Modelled from the spec: `GET /api/admin/features?namePrefix=p` —
keeps exactly the toggles whose name starts with the exact prefix,
preserving creation (insertion) order. -/
def namePrefixQuery (p : String) (st : ServerState) : List FeatureToggle :=
  st.features.filter (fun f => listPre p.toList f.name.toList)

/-- The empty server state. -/
def emptyState : ServerState := ⟨[], [], []⟩

/-- The default strategy used throughout the admin-API tests. -/
def defaultStrategy : Strategy := ⟨"default", []⟩

/-- A concrete tagged toggle exercising the archive path. -/
def sampleToggle : FeatureToggle :=
  ⟨"a_team.toggle", false, [defaultStrategy], [], false, "projecta",
    [⟨"simple", "tag"⟩]⟩

/-- A server state holding just `sampleToggle`. -/
def sampleState : ServerState := ⟨[sampleToggle], [], []⟩

/-- A state with an active toggle `ts` and an archived toggle
`ts.archived`, as set up by the name-conflict tests. -/
def conflictState : ServerState :=
  ⟨[⟨"ts", false, [defaultStrategy], [], false, "default", []⟩],
   [⟨"ts.archived", false, [defaultStrategy], [], false, "default", []⟩],
   []⟩

/-- A definition whose name contains a space, from the invalid-name
tests. -/
def badNameToggle : FeatureToggle :=
  ⟨"some example", false, [defaultStrategy], [], false, "default", []⟩

/-- A definition with a valid name and one strategy. -/
def goodToggle : FeatureToggle :=
  ⟨"com.example", false, [defaultStrategy], [], false, "default", []⟩

/-- A definition with an empty strategy list. -/
def noStrategyToggle : FeatureToggle :=
  ⟨"sample.missing.strategy", false, [], [], false, "default", []⟩

/-- The three toggles of the name-prefix filtering test. -/
def aTeamToggle : FeatureToggle :=
  ⟨"a_team.toggle", false, [defaultStrategy], [], false, "default", []⟩

/-- Second toggle of the name-prefix filtering test. -/
def aTagToggle : FeatureToggle :=
  ⟨"a_tag.toggle", false, [defaultStrategy], [], false, "default", []⟩

/-- Third toggle of the name-prefix filtering test. -/
def bTagToggle : FeatureToggle :=
  ⟨"b_tag.toggle", false, [defaultStrategy], [], false, "default", []⟩

/-- The state after creating the three prefix-test toggles in order. -/
def threeToggleState : ServerState :=
  (createFeature bTagToggle
    (createFeature aTagToggle
      (createFeature aTeamToggle emptyState).2).2).2

end Unleash

open Unleash Unleash.TagStore

theorem hasKey_append (db l : TagTable) (t : ITag) :
    hasKey (db ++ l) t = (hasKey db t || hasKey l t) := by
  simp [hasKey, List.any_append]

theorem bulkImport_hasKey_mono (l : List ITag) (db : TagTable) (t : ITag)
    (h : hasKey db t = true) : hasKey (bulkImport l db).2 t = true := by
  induction l generalizing db with
  | nil => simpa [bulkImport] using h
  | cons x rest ih =>
    by_cases hx : hasKey db x = true
    · simpa [bulkImport, hx] using ih db h
    · have h2 : hasKey (db ++ [x]) t = true := by
        rw [hasKey_append, h]
        simp
      simp only [bulkImport, hx, if_neg, Bool.not_eq_true] at *
      simpa [hx] using ih (db ++ [x]) h2

theorem sameKey_refl (t : ITag) : sameKey t t = true := by
  simp [sameKey]

theorem bulkImport_hasKey_all (l : List ITag) (db : TagTable) (t : ITag)
    (h : t ∈ l) : hasKey (bulkImport l db).2 t = true := by
  induction l generalizing db with
  | nil => cases h
  | cons x rest ih =>
    by_cases hx : hasKey db x = true
    · rcases List.mem_cons.mp h with rfl | hmem
      · simpa [bulkImport, hx] using bulkImport_hasKey_mono rest db t hx
      · simpa [bulkImport, hx] using ih db hmem
    · rcases List.mem_cons.mp h with rfl | hmem
      · have hself : hasKey (db ++ [t]) t = true := by
          rw [hasKey_append]
          simp [hasKey, sameKey_refl]
        simp only [bulkImport, hx, if_neg, Bool.not_eq_true]
        simpa using bulkImport_hasKey_mono rest (db ++ [t]) t hself
      · simp only [bulkImport, hx, if_neg, Bool.not_eq_true]
        simpa using ih (db ++ [x]) hmem

theorem bulkImport_noop (l : List ITag) (db : TagTable)
    (h : ∀ t ∈ l, hasKey db t = true) : bulkImport l db = ([], db) := by
  induction l with
  | nil => rfl
  | cons x rest ih =>
    have hx : hasKey db x = true := h x (List.mem_cons_self x rest)
    simp only [bulkImport, hx, if_pos]
    exact ih (fun t ht => h t (List.mem_cons_of_mem x ht))

theorem hasKey_iff (db : TagTable) (t : ITag) :
    hasKey db t = true ↔ ∃ r ∈ db, r.type = t.type ∧ r.value = t.value := by
  simp [hasKey, sameKey, List.any_eq_true]

theorem getTag_isOk_eq (ty v : String) (db : TagTable) :
    (getTag ty v db).isOk =
      (db.find? (fun r => r.type == ty && r.value == v)).isSome := by
  unfold getTag
  cases db.find? (fun r => r.type == ty && r.value == v) <;> rfl

theorem getTag_isOk_iff (ty v : String) (db : TagTable) :
    (getTag ty v db).isOk = true ↔ ∃ r ∈ db, r.type = ty ∧ r.value = v := by
  rw [getTag_isOk_eq, Option.isSome_iff_exists]
  constructor
  · rintro ⟨r, hr⟩
    have hmem := List.mem_of_find?_eq_some hr
    have hp := List.find?_some hr
    simp only [Bool.and_eq_true, beq_iff_eq] at hp
    exact ⟨r, hmem, hp⟩
  · rintro ⟨r, hr, h1, h2⟩
    have : (db.find? (fun r => r.type == ty && r.value == v)).isSome = true := by
      rw [List.find?_isSome]
      exact ⟨r, hr, by simp [h1, h2]⟩
    rcases Option.isSome_iff_exists.mp this with ⟨t, ht⟩
    exact ⟨t, ht⟩

/-- C2: `bulkImport` on the tag store is idempotent: running it a second
time with the same list of tags leaves the table exactly as after the
first run, raises no error (the operation is total), and reports no
skipped rows — the second run returns the empty inserted-rows list. -/
theorem c2_bulkImport_idempotent (tags : List ITag) (db : TagTable) :
    bulkImport tags (bulkImport tags db).2 = ([], (bulkImport tags db).2) :=
  bulkImport_noop tags (bulkImport tags db).2
    (fun t ht => bulkImport_hasKey_all tags db t ht)

/-- C6: `getTag(type, value)` returns a tag exactly when a row with that
natural key is stored, raises `NotFoundError` (with its message) exactly
when no such row exists, and any tag it returns carries the requested
key.  Being a `SELECT`, it leaves the table unchanged by construction. -/
theorem c6_getTag_raises_iff_absent (ty v : String) (db : TagTable) :
    ((getTag ty v db).isOk = true ↔ ∃ r ∈ db, r.type = ty ∧ r.value = v) ∧
    (getTag ty v db = Except.error (notFoundMsg ty v) ↔
      ∀ r ∈ db, ¬(r.type = ty ∧ r.value = v)) ∧
    (∀ t, getTag ty v db = Except.ok t → t.type = ty ∧ t.value = v) := by
  refine ⟨getTag_isOk_iff ty v db, ?_, ?_⟩
  · unfold getTag
    cases hf : db.find? (fun r => r.type == ty && r.value == v) with
    | none =>
      have hall := List.find?_eq_none.mp hf
      constructor
      · intro _ r hr
        have hb := hall r hr
        simp only [Bool.and_eq_true, beq_iff_eq, not_and] at hb
        exact fun hc => hb hc.1 hc.2
      · intro _
        rfl
    | some t =>
      have hmem := List.mem_of_find?_eq_some hf
      have hp := List.find?_some hf
      simp only [Bool.and_eq_true, beq_iff_eq] at hp
      constructor
      · intro h
        exact Except.noConfusion h
      · intro hall
        exact ((hall t hmem) ⟨hp.1, hp.2⟩).elim
  · intro t ht
    cases hf : db.find? (fun r => r.type == ty && r.value == v) with
    | none =>
      unfold getTag at ht
      rw [hf] at ht
      exact Except.noConfusion ht
    | some u =>
      have hu : getTag ty v db = Except.ok u := by
        unfold getTag
        rw [hf]
      rw [hu] at ht
      have huv : u = t := by
        injection ht
      have hp := List.find?_some hf
      simp only [Bool.and_eq_true, beq_iff_eq] at hp
      rw [← huv]
      exact hp

/-- C7: `createTag(tag)` fails with the duplicate-key error exactly when
a row with the same `(type, value)` natural key is already stored (the
table unchanged on failure, since the failing statement inserts
nothing), and succeeds — appending the tag and leaving every other row
in place — exactly when no such row exists. -/
theorem c7_createTag_dup_iff (tag : ITag) (db : TagTable) :
    (createTag tag db = Except.error dupKeyMsg ↔
      ∃ r ∈ db, r.type = tag.type ∧ r.value = tag.value) ∧
    (createTag tag db = Except.ok (db ++ [tag]) ↔
      ∀ r ∈ db, ¬(r.type = tag.type ∧ r.value = tag.value)) := by
  by_cases h : hasKey db tag = true
  · have hex := (hasKey_iff db tag).mp h
    have hceq : createTag tag db = Except.error dupKeyMsg := by
      simp [createTag, h]
    rw [hceq]
    constructor
    · exact iff_of_true rfl hex
    · constructor
      · intro hc
        exact Except.noConfusion hc
      · intro hall
        rcases hex with ⟨r, hr, hk⟩
        exact ((hall r hr) hk).elim
  · have hb : hasKey db tag = false := by simpa using h
    have hnex : ¬∃ r ∈ db, r.type = tag.type ∧ r.value = tag.value :=
      fun hex => h ((hasKey_iff db tag).mpr hex)
    have hceq : createTag tag db = Except.ok (db ++ [tag]) := by
      simp [createTag, hb]
    rw [hceq]
    constructor
    · constructor
      · intro hc
        exact Except.noConfusion hc
      · intro hex
        exact (hnex hex).elim
    · exact iff_of_true rfl (fun r hr hk => hnex ⟨r, hr, hk⟩)

/-- C8: `deleteTag(tag)` removes exactly the rows whose `(type, value)`
equal the argument's, keeps every other row (in order: the result is a
sublist of the table), and when no row matches it is a no-op — the
table is returned unchanged and no error is possible (the function is
total). -/
theorem c8_deleteTag_exact (tag : ITag) (db : TagTable) :
    (∀ r, r ∈ deleteTag tag db ↔
      r ∈ db ∧ ¬(r.type = tag.type ∧ r.value = tag.value)) ∧
    List.Sublist (deleteTag tag db) db ∧
    ((∀ r ∈ db, ¬(r.type = tag.type ∧ r.value = tag.value)) →
      deleteTag tag db = db) := by
  refine ⟨?_, List.filter_sublist db, ?_⟩
  · intro r
    simp only [deleteTag, List.mem_filter, sameKey, Bool.not_eq_true',
      Bool.and_eq_false_iff, beq_eq_false_iff_ne, ne_eq, not_and]
    constructor
    · rintro ⟨hr, hk⟩
      refine ⟨hr, ?_⟩
      intro hc
      rcases hk with h1 | h2
      · exact (h1 hc).elim
      · exact h2
    · rintro ⟨hr, hk⟩
      refine ⟨hr, ?_⟩
      by_cases h1 : r.type = tag.type
      · exact Or.inr (hk h1)
      · exact Or.inl h1
  · intro h
    apply List.filter_eq_self.mpr
    intro a ha
    simp only [sameKey, Bool.not_eq_true', Bool.and_eq_false_iff,
      beq_eq_false_iff_ne, ne_eq]
    by_cases h1 : a.type = tag.type
    · exact Or.inr (fun h2 => h a ha ⟨h1, h2⟩)
    · exact Or.inl h1

/-- Witness for C8: deleting a tag that is not stored leaves the
single-row table unchanged. -/
theorem c8_deleteTag_exact_witness :
    deleteTag ⟨"simple", "absent"⟩ [⟨"simple", "one"⟩] = [⟨"simple", "one"⟩] :=
  (c8_deleteTag_exact ⟨"simple", "absent"⟩ [⟨"simple", "one"⟩]).2.2 (by decide)

/-- C10: `exists(tag)` and `getTag(tag.type, tag.value)` agree on every
table: the boolean is true exactly when the lookup succeeds.  Both are
`SELECT`-only and leave the table unchanged by construction. -/
theorem c10_exists_agrees_getTag (tag : ITag) (db : TagTable) :
    existsTag tag db = (getTag tag.type tag.value db).isOk := by
  rw [Bool.eq_iff_iff]
  have h1 : existsTag tag db = true ↔
      ∃ r ∈ db, r.type = tag.type ∧ r.value = tag.value := by
    simp [existsTag, List.any_eq_true]
  rw [h1, getTag_isOk_iff]

theorem listPre_iff (as bs : List Char) : listPre as bs = true ↔ as <+: bs := by
  induction as generalizing bs with
  | nil => simp [listPre, List.nil_prefix]
  | cons a as ih =>
    cases bs with
    | nil => simp [listPre]
    | cons b bs => simp [listPre, List.cons_prefix_cons, ih]

/-- C1: archiving a toggle that carries tags emits exactly one
`feature-archived` event — the log grows by that single event — whose
`tags` field is the toggle's tag set at the moment of archiving; the
event is a by-value copy, so a later tag operation only appends to the
log and the recorded event survives unchanged. -/
theorem c1_archive_event_tags (st : ServerState) (name : String)
    (t : FeatureToggle) (hfind : findFeature name st.features = some t)
    (_htags : t.tags ≠ []) :
    (archiveFeature name st).2.events =
      st.events ++ [⟨"feature-archived", name, t.tags⟩] ∧
    (archiveFeature name st).1.status = 200 ∧
    (∀ n tg, (archiveFeature name st).2.events <+:
      (tagFeature n tg (archiveFeature name st).2).events) := by
  refine ⟨?_, ?_, ?_⟩
  · simp [archiveFeature, hfind]
  · simp [archiveFeature, hfind]
  · intro n tg
    simp only [tagFeature]
    exact List.prefix_append _ _

/-- Witness for C1: archiving the tagged sample toggle records one
`feature-archived` event carrying its tag. -/
theorem c1_archive_event_tags_witness :
    (archiveFeature "a_team.toggle" sampleState).2.events =
      sampleState.events ++
        [⟨"feature-archived", "a_team.toggle", [⟨"simple", "tag"⟩]⟩] ∧
    (archiveFeature "a_team.toggle" sampleState).1.status = 200 :=
  have h := c1_archive_event_tags sampleState "a_team.toggle" sampleToggle
    (by decide) (by decide)
  ⟨h.1, h.2.1⟩

/-- C3: a URL-friendly name already taken by an active toggle makes both
the validate endpoint and toggle creation fail with `409` and the
message `A toggle with that name already exists`; a name taken only by
an archived toggle fails the same way with
`An archived toggle with that name already exists`; failed creation
leaves the state unchanged. -/
theorem c3_name_conflict (name : String) (st : ServerState)
    (d : FeatureToggle) (hurl : isUrlFriendly name = true)
    (hd : d.name = name) :
    ((findFeature name st.features).isSome = true →
      validateToggleName name st = ⟨409, some conflictActiveMsg⟩ ∧
      createFeature d st = (⟨409, some conflictActiveMsg⟩, st)) ∧
    ((findFeature name st.features).isSome = false →
      (findFeature name st.archived).isSome = true →
      validateToggleName name st = ⟨409, some conflictArchivedMsg⟩ ∧
      createFeature d st = (⟨409, some conflictArchivedMsg⟩, st)) := by
  subst hd
  constructor
  · intro hact
    constructor
    · simp [validateToggleName, hurl, hact]
    · simp [createFeature, hurl, hact]
  · intro hact harch
    constructor
    · simp [validateToggleName, hurl, hact, harch]
    · simp [createFeature, hurl, hact, harch]

/-- Witness for C3: with `ts` active and `ts.archived` archived, both
conflict cases produce their `409` messages. -/
theorem c3_name_conflict_witness :
    (validateToggleName "ts" conflictState =
      ⟨409, some conflictActiveMsg⟩ ∧
     createFeature ⟨"ts", false, [defaultStrategy], [], false, "default", []⟩
       conflictState = (⟨409, some conflictActiveMsg⟩, conflictState)) ∧
    (validateToggleName "ts.archived" conflictState =
      ⟨409, some conflictArchivedMsg⟩ ∧
     createFeature
       ⟨"ts.archived", false, [defaultStrategy], [], false, "default", []⟩
       conflictState = (⟨409, some conflictArchivedMsg⟩, conflictState)) :=
  ⟨(c3_name_conflict "ts" conflictState _ (by decide) rfl).1 (by decide),
   (c3_name_conflict "ts.archived" conflictState _ (by decide) rfl).2
     (by decide) (by decide)⟩

/-- C4: a name failing the URL-friendly pattern makes creation fail with
`400` and exactly the message `"name" must be URL friendly`, leaving the
state unchanged; a name matching the pattern — with an available name,
at least one strategy and distinct variant names — is created with
`201`. -/
theorem c4_name_pattern (d : FeatureToggle) (st : ServerState) :
    (isUrlFriendly d.name = false →
      createFeature d st = (⟨400, some urlFriendlyMsg⟩, st)) ∧
    (isUrlFriendly d.name = true →
      (findFeature d.name st.features).isSome = false →
      (findFeature d.name st.archived).isSome = false →
      d.strategies ≠ [] →
      namesNodup (d.variants.map Variant.name) = true →
      (createFeature d st).1 = ⟨201, none⟩) := by
  constructor
  · intro h
    simp [createFeature, h]
  · intro h1 h2 h3 h4 h5
    have he : d.strategies.isEmpty = false := by
      simpa [List.isEmpty_eq_false] using h4
    simp [createFeature, h1, h2, h3, he, h5]

/-- Witness for C4: `some example` (a space) is rejected with the exact
message; `com.example` with one strategy is created with `201`. -/
theorem c4_name_pattern_witness :
    createFeature badNameToggle emptyState =
      (⟨400, some urlFriendlyMsg⟩, emptyState) ∧
    (createFeature goodToggle emptyState).1 = ⟨201, none⟩ :=
  ⟨(c4_name_pattern badNameToggle emptyState).1 (by decide),
   (c4_name_pattern goodToggle emptyState).2 (by decide) (by decide)
     (by decide) (by decide) (by decide)⟩

/-- C5: a definition with zero strategies is never created — whenever
its name is not already taken the request fails with `400` and the
state is unchanged, and a `201` success is only ever produced for a
definition with at least one strategy. -/
theorem c5_zero_strategies (d : FeatureToggle) (st : ServerState) :
    (d.strategies = [] →
      (findFeature d.name st.features).isSome = false →
      (findFeature d.name st.archived).isSome = false →
      (createFeature d st).1.status = 400 ∧ (createFeature d st).2 = st) ∧
    ((createFeature d st).1.status = 201 → d.strategies ≠ []) := by
  constructor
  · intro h0 h2 h3
    by_cases h1 : isUrlFriendly d.name = true
    · have he : d.strategies.isEmpty = true := by simp [h0]
      constructor <;> simp [createFeature, h1, h2, h3, he]
    · have h1f : isUrlFriendly d.name = false := by simpa using h1
      constructor <;> simp [createFeature, h1f]
  · intro h hc
    unfold createFeature at h
    split at h
    · simp at h
    · split at h
      · simp at h
      · split at h
        · simp at h
        · split at h
          · simp at h
          · rename_i hne
            exact absurd (by simp [hc]) hne

/-- Witness for C5: creating `sample.missing.strategy` with no
strategies on the empty state fails with `400` and changes nothing. -/
theorem c5_zero_strategies_witness :
    (createFeature noStrategyToggle emptyState).1.status = 400 ∧
    (createFeature noStrategyToggle emptyState).2 = emptyState :=
  (c5_zero_strategies noStrategyToggle emptyState).1 rfl (by decide)
    (by decide)

/-- C9: the `namePrefix` query returns exactly the stored toggles whose
name starts with the exact prefix, keeping creation (insertion) order —
the result is a sublist of the toggle list; in particular, after
creating `a_team.toggle`, `a_tag.toggle`, `b_tag.toggle` in that order,
querying the prefix `a_` yields exactly the first two, in order. -/
theorem c9_namePrefixQuery_exact (p : String) (st : ServerState) :
    (∀ f, f ∈ namePrefixQuery p st ↔
      f ∈ st.features ∧ p.toList <+: f.name.toList) ∧
    List.Sublist (namePrefixQuery p st) st.features ∧
    namePrefixQuery "a_" threeToggleState = [aTeamToggle, aTagToggle] := by
  refine ⟨?_, List.filter_sublist st.features, by decide⟩
  intro f
  simp [namePrefixQuery, List.mem_filter, listPre_iff]

/-- Witness for C6: on a one-row table the present key is found and the
absent key raises the `NotFoundError` message. -/
theorem c6_getTag_raises_iff_absent_witness :
    (getTag "simple" "one" [⟨"simple", "one"⟩]).isOk = true ∧
    getTag "simple" "two" [⟨"simple", "one"⟩] =
      Except.error (notFoundMsg "simple" "two") :=
  ⟨((c6_getTag_raises_iff_absent "simple" "one" [⟨"simple", "one"⟩]).1).mpr
      ⟨⟨"simple", "one"⟩, by simp, rfl, rfl⟩,
   ((c6_getTag_raises_iff_absent "simple" "two" [⟨"simple", "one"⟩]).2.1).mpr
      (by decide)⟩
